import Mathlib

/-!
Verification of the supauth request/response pipeline (`client.go`, `auth.go`).

The pipeline is shallowly embedded: HTTP bodies are JSON documents, modelled by
the inductive `Json` below; a response body that is not syntactically valid
JSON (including an empty body) is modelled as `Option.none`.  JSON numbers are
modelled as integers, which covers every number the pipeline's decoders accept
into their `int` fields.  The transport (`HttpClient.Do`) is an arbitrary
function from requests to either a transport error or a response, matching the
`httpClientInterface` seam.  Fallible Go functions returning `(T, error)` are
embedded as `Except String T`.
-/

namespace Supauth

/-- A JSON document.  Numbers are modelled as integers (see module comment). -/
inductive Json where
  | null
  | bool (b : Bool)
  | num (n : Int)
  | str (s : String)
  | arr (elems : List Json)
  | obj (fields : List (String × Json))

/-- `ErrorResponse` from client.go: struct fields `Status`/`ErrorCode`/`Message`
with JSON tags `code`/`error_code`/`msg`.  Zero values as in Go. -/
structure ErrorResponse where
  Status : Int := 0
  ErrorCode : String := ""
  Message : String := ""
  deriving Repr, DecidableEq

/-- ASCII case-folded code of a character, for Go's case-insensitive JSON field
matching (`encoding/json` matches struct keys with `strings.EqualFold`; the
keys involved here are ASCII). -/
def foldCode (c : Char) : Nat :=
  let n := c.toNat
  if 65 ≤ n ∧ n ≤ 90 then n + 32 else n

/-- Case-insensitive (ASCII-folded) string comparison, modelling the key
matching of `encoding/json` when it decodes into a struct. -/
def eqFold (a b : String) : Bool :=
  a.toList.map foldCode == b.toList.map foldCode

/-- Decoding the fields of a JSON object into `ErrorResponse`, following Go's
`encoding/json` semantics: keys are matched case-insensitively against the
tags `code`, `error_code`, `msg`; an unmatched key is skipped; a JSON `null`
value leaves the field unchanged; a value of the wrong type is an error
(in Go the decoder records the error and `Decode` returns it non-nil, which
is observationally the same for the pipeline as failing at once). -/
def applyErrorField (er : ErrorResponse) (k : String) (v : Json) : Except String ErrorResponse :=
  if eqFold k "code" then
    match v with
    | .num n => .ok { er with Status := n }
    | .null => .ok er
    | _ => .error "json: cannot unmarshal value into Go struct field ErrorResponse.code of type int"
  else if eqFold k "error_code" then
    match v with
    | .str s => .ok { er with ErrorCode := s }
    | .null => .ok er
    | _ => .error "json: cannot unmarshal value into Go struct field ErrorResponse.error_code of type string"
  else if eqFold k "msg" then
    match v with
    | .str s => .ok { er with Message := s }
    | .null => .ok er
    | _ => .error "json: cannot unmarshal value into Go struct field ErrorResponse.msg of type string"
  else .ok er

def decodeErrorFields : ErrorResponse → List (String × Json) → Except String ErrorResponse
  | er, [] => .ok er
  | er, (k, v) :: rest =>
    match applyErrorField er k v with
    | .error e => .error e
    | .ok er2 => decodeErrorFields er2 rest

/-- `json.Decode` of a JSON document into `&ErrorResponse{}` (Go semantics:
`null` leaves the zero value untouched and is not an error; an object is
decoded field by field; any other document is a type error). -/
def decodeErrorResponse : Json → Except String ErrorResponse
  | .null => .ok {}
  | .obj fields => decodeErrorFields {} fields
  | _ => .error "json: cannot unmarshal value into Go value of type supauth.ErrorResponse"

/-- `UserCredentials` from auth.go: two exported fields, no JSON struct tags. -/
structure UserCredentials where
  Email : String
  Password : String
  deriving Repr, DecidableEq

/-- Decoding the fields of a JSON object into `UserCredentials`.  The struct
declares no tags, so `encoding/json` matches the exported field names
`Email` / `Password`, case-insensitively. -/
def applyCredentialField (uc : UserCredentials) (k : String) (v : Json) : Except String UserCredentials :=
  if eqFold k "Email" then
    match v with
    | .str s => .ok { uc with Email := s }
    | .null => .ok uc
    | _ => .error "json: cannot unmarshal value into Go struct field UserCredentials.Email of type string"
  else if eqFold k "Password" then
    match v with
    | .str s => .ok { uc with Password := s }
    | .null => .ok uc
    | _ => .error "json: cannot unmarshal value into Go struct field UserCredentials.Password of type string"
  else .ok uc

def decodeCredentialFields : UserCredentials → List (String × Json) → Except String UserCredentials
  | uc, [] => .ok uc
  | uc, (k, v) :: rest =>
    match applyCredentialField uc k v with
    | .error e => .error e
    | .ok uc2 => decodeCredentialFields uc2 rest

/-- `json.Unmarshal` of a JSON document into `&UserCredentials{}`. -/
def decodeUserCredentials : Json → Except String UserCredentials
  | .null => .ok { Email := "", Password := "" }
  | .obj fields => decodeCredentialFields { Email := "", Password := "" } fields
  | _ => .error "json: cannot unmarshal value into Go value of type supauth.UserCredentials"

/-- Sorted insert-or-replace into the canonical association list representing a
Go `map[string]string` (canonical form: keys strictly increasing). -/
def insertStrMap : List (String × String) → String → String → List (String × String)
  | [], k, v => [(k, v)]
  | (k0, v0) :: rest, k, v =>
    if k = k0 then (k, v) :: rest
    else if k < k0 then (k, v) :: (k0, v0) :: rest
    else (k0, v0) :: insertStrMap rest k v

/-- Decoding the fields of a JSON object into a `map[string]string` (Go: each
key is stored in order, a later duplicate overwrites, a `null` value stores
the zero value `""`, a non-string value is a type error).  The result is kept
in canonical key-sorted form, the order being unobservable on a Go map. -/
def decodeStrMapFields : List (String × Json) → List (String × String) → Except String (List (String × String))
  | [], acc => .ok acc
  | (k, v) :: rest, acc =>
    match v with
    | .str s => decodeStrMapFields rest (insertStrMap acc k s)
    | .null => decodeStrMapFields rest (insertStrMap acc k "")
    | _ => .error "json: cannot unmarshal value into Go value of type string"

/-- `json.Unmarshal` of a JSON document into a `map[string]string` (a `null`
document yields the nil map, identified here with the empty map). -/
def decodeStrMap : Json → Except String (List (String × String))
  | .null => .ok []
  | .obj fields => decodeStrMapFields fields []
  | _ => .error "json: cannot unmarshal value into Go value of type map"

/-- The payload universe actually passed to `createRequest` by this repository:
`nil` (SignOut), a `UserCredentials` value (SignUp, SignIn), or a
`map[string]string` (RefreshToken, ForgottenPassword, ResetPassword), the map
represented by its canonical key-sorted association list. -/
inductive Payload where
  | null
  | creds (c : UserCredentials)
  | strMap (entries : List (String × String))
  deriving Repr, DecidableEq

/-- `json.Marshal` on the payload universe, following Go semantics: `nil`
marshals to `null`; a struct without tags marshals its exported field names in
declaration order, hence the capitalized keys `Email` and `Password`; a map
marshals its keys in sorted order, i.e. in the order of the canonical list.
On this universe `Marshal` cannot fail, as in Go. -/
def marshalPayload : Payload → Json
  | .null => .null
  | .creds c => .obj [("Email", .str c.Email), ("Password", .str c.Password)]
  | .strMap entries => .obj (entries.map fun kv => (kv.1, .str kv.2))

/-- An outgoing HTTP request (`*http.Request`): method, URL, JSON body,
headers.  Header keys are kept verbatim (Go canonicalizes them, which no claim
observes). -/
structure Request where
  Method : String
  Url : String
  Body : Json
  Headers : List (String × String)

/-- `http.Header.Set`: replace any previous value of the key. -/
def setHeader (hs : List (String × String)) (k v : String) : List (String × String) :=
  (hs.filter fun kv => kv.1 ≠ k) ++ [(k, v)]

/-- Whether a character may appear in an HTTP method (net/http `validMethod`:
the token characters of RFC 7230). -/
def isTokenChar (c : Char) : Bool :=
  let n := c.toNat
  (48 ≤ n ∧ n ≤ 57) ∨ (65 ≤ n ∧ n ≤ 90) ∨ (97 ≤ n ∧ n ≤ 122) ∨
    n = 33 ∨ n = 35 ∨ n = 36 ∨ n = 37 ∨ n = 38 ∨ n = 39 ∨ n = 42 ∨ n = 43 ∨
    n = 45 ∨ n = 46 ∨ n = 94 ∨ n = 95 ∨ n = 96 ∨ n = 124 ∨ n = 126

/-- An ASCII control byte (below 0x20, or 0x7f); `net/url.Parse` rejects these
anywhere before the fragment ("net/url: invalid control character in URL"). -/
def isCtlByte (c : Char) : Bool :=
  c.toNat < 32 ∨ c.toNat = 127

/-- Whether the string contains an ASCII control byte. -/
def hasCtlByte (s : String) : Bool :=
  s.toList.any isCtlByte

/-- Split at the first occurrence of `sep`: `(before, after)`, the separator
dropped; when `sep` is absent the whole list is `before` (as with Go's
`strings.Cut`, whose found-flag no validity decision depends on here). -/
def splitFirst (sep : Char) : List Char → List Char × List Char
  | [] => ([], [])
  | c :: rest =>
    if c = sep then ([], rest)
    else
      let p := splitFirst sep rest
      (c :: p.1, p.2)

/-- Split at the last occurrence of `sep`: `some (before, after)` with the
separator dropped, or `none` when `sep` does not occur. -/
def splitLast (sep : Char) : List Char → Option (List Char × List Char)
  | [] => none
  | c :: rest =>
    match splitLast sep rest with
    | some p => some (c :: p.1, p.2)
    | none => if c = sep then some ([], rest) else none

/-- Value of a hexadecimal digit, or 16 for a non-hex character. -/
def hexVal (c : Char) : Nat :=
  let n := c.toNat
  if 48 ≤ n ∧ n ≤ 57 then n - 48
  else if 65 ≤ n ∧ n ≤ 70 then n - 55
  else if 97 ≤ n ∧ n ≤ 102 then n - 87
  else 16

def isHexDigit (c : Char) : Bool :=
  hexVal c < 16

def isAsciiDigit (c : Char) : Bool :=
  48 ≤ c.toNat ∧ c.toNat ≤ 57

/-- net/url `unescape` outside host mode: every `%` must be followed by two
hexadecimal digits (applies to path, userinfo and fragment). -/
def escapesOk : List Char → Bool
  | [] => true
  | '%' :: a :: b :: rest => isHexDigit a && isHexDigit b && escapesOk rest
  | '%' :: _ => false
  | _ :: rest => escapesOk rest

/-- net/url `unescape` in host mode: a `%`-escape must be two hex digits AND
must not encode an ASCII byte that needs escaping — Go accepts it only when
the first hex digit is at least 8 (a non-ASCII byte) or the escape is exactly
`%25`. -/
def hostEscapesOk : List Char → Bool
  | [] => true
  | '%' :: a :: b :: rest =>
    isHexDigit a && isHexDigit b && (8 ≤ hexVal a ∨ (a = '2' ∧ b = '5')) && hostEscapesOk rest
  | '%' :: _ => false
  | _ :: rest => hostEscapesOk rest

/-- Bytes `net/url` accepts raw in a host name (`shouldEscape` in host mode):
ASCII alphanumerics, the unreserved marks `-._~`, the sub-delims
`!$&()*+,;=` and the apostrophe (code 39), the extra characters
`:[]<>` and the double quote admitted by RFC 3986 §3.2.2, any non-ASCII byte,
and `%` (escapes being checked by `hostEscapesOk`). -/
def isHostChar (c : Char) : Bool :=
  let n := c.toNat
  (48 ≤ n ∧ n ≤ 57) ∨ (65 ≤ n ∧ n ≤ 90) ∨ (97 ≤ n ∧ n ≤ 122) ∨
    n = 45 ∨ n = 46 ∨ n = 95 ∨ n = 126 ∨
    n = 33 ∨ n = 36 ∨ n = 38 ∨ n = 39 ∨ n = 40 ∨ n = 41 ∨ n = 42 ∨ n = 43 ∨
    n = 44 ∨ n = 59 ∨ n = 61 ∨
    n = 58 ∨ n = 91 ∨ n = 93 ∨ n = 60 ∨ n = 62 ∨ n = 34 ∨
    n = 37 ∨ 128 ≤ n

/-- Characters net/url `validUserinfo` accepts (ASCII alphanumerics, the
marks `-._:~`, the sub-delims including the apostrophe (code 39), `%` and
`@`; non-ASCII runes are rejected). -/
def isUserinfoChar (c : Char) : Bool :=
  let n := c.toNat
  (48 ≤ n ∧ n ≤ 57) ∨ (65 ≤ n ∧ n ≤ 90) ∨ (97 ≤ n ∧ n ≤ 122) ∨
    n = 45 ∨ n = 46 ∨ n = 95 ∨ n = 58 ∨ n = 126 ∨
    n = 33 ∨ n = 36 ∨ n = 38 ∨ n = 39 ∨ n = 40 ∨ n = 41 ∨ n = 42 ∨ n = 43 ∨
    n = 44 ∨ n = 59 ∨ n = 61 ∨ n = 37 ∨ n = 64

/-- net/url `validOptionalPort`: empty, or a colon followed by decimal digits
only. -/
def validOptionalPort : List Char → Bool
  | [] => true
  | ':' :: port => port.all isAsciiDigit
  | _ => false

/-- net/url `parseHost`: a bracketed host needs a closing bracket and a valid
optional port after it; otherwise the segment after the last colon must be a
valid port; in both cases every byte must be a legal raw host byte and every
`%`-escape must satisfy the host escape rule. -/
def hostOk (host : List Char) : Bool :=
  match host with
  | '[' :: _ =>
    (match splitLast ']' host with
     | none => false
     | some p => validOptionalPort p.2) &&
    host.all isHostChar && hostEscapesOk host
  | _ =>
    (match splitLast ':' host with
     | none => true
     | some p => p.2.all isAsciiDigit) &&
    host.all isHostChar && hostEscapesOk host

/-- net/url `parseAuthority`: an authority splits at the last `@` into
userinfo (validated character-wise plus escape-checked) and host. -/
def authorityOk (authority : List Char) : Bool :=
  match splitLast '@' authority with
  | none => hostOk authority
  | some p => p.1.all isUserinfoChar && escapesOk p.1 && hostOk p.2

/-- The authority form `//authority/path`: the authority runs to the first
slash, the rest is the path (whose `%`-escapes `setPath` checks). -/
def authorityForm (auth0 : List Char) : Bool :=
  authorityOk (splitFirst '/' auth0).1 && escapesOk (splitFirst '/' auth0).2

/-- No colon in the first path segment of a scheme-less relative URL
(net/url: "first path segment in URL cannot contain colon"). -/
def noColonFirstSegment (rest : List Char) : Bool :=
  (splitFirst '/' rest).1.all fun c => ¬ c = ':'

/-- Outcome of net/url `getScheme`. -/
inductive SchemeSplit where
  | malformed
  | noScheme
  | scheme (rest : List Char)

/-- net/url `getScheme`: a scheme is letters then letters/digits/`+-.` up to a
colon; a leading colon is "missing protocol scheme"; a leading digit/`+-.` or
any other character means no scheme. -/
def getSchemeAux : Bool → List Char → SchemeSplit
  | _, [] => .noScheme
  | first, c :: rest =>
    if (65 ≤ c.toNat ∧ c.toNat ≤ 90) ∨ (97 ≤ c.toNat ∧ c.toNat ≤ 122) then
      getSchemeAux false rest
    else if (48 ≤ c.toNat ∧ c.toNat ≤ 57) ∨ c = '+' ∨ c = '-' ∨ c = '.' then
      if first then .noScheme else getSchemeAux false rest
    else if c = ':' then
      if first then .malformed else .scheme rest
    else .noScheme

def getScheme (l : List Char) : SchemeSplit :=
  getSchemeAux true l

/-- net/url `parse` after scheme and query handling: `//`-prefixed rests carry
an authority (except a scheme-less `///`, which is a path); other `/`-prefixed
rests are paths; a non-`/` rest is an unvalidated opaque when a scheme is
present, else a relative path whose first segment must not contain a colon. -/
def afterQuery (hasScheme : Bool) (rest : List Char) : Bool :=
  match rest with
  | '/' :: '/' :: '/' :: _ =>
    if hasScheme then authorityForm (rest.drop 2) else escapesOk rest
  | '/' :: '/' :: auth0 => authorityForm auth0
  | '/' :: _ => escapesOk rest
  | _ =>
    if hasScheme then true
    else noColonFirstSegment rest && escapesOk rest

def afterScheme (hasScheme : Bool) (rest0 : List Char) : Bool :=
  afterQuery hasScheme (splitFirst '?' rest0).1

/-- Whether `net/url.Parse` accepts the string.  Modelled from the Go source:
the fragment is cut at the first `#` (checked only for escape
well-formedness); the rest must be free of control bytes; the scheme is
parsed; the query (cut at the first `?`) is not validated; then the
authority/path shape is validated — in particular an illegal byte such as
`{` in the host name is rejected, as the repository's "invalid url" test
expects.  Not modelled: IPv6 zone identifiers beyond the escape and bracket
rules. -/
def urlParseOk (s : String) : Bool :=
  let p := splitFirst '#' s.toList
  if p.1.any isCtlByte then false
  else
    escapesOk p.2 &&
    match getScheme p.1 with
    | .malformed => false
    | .noScheme => afterScheme false p.1
    | .scheme rest => afterScheme true rest

/-- The URL-parse error of net/url, standing for its whole class of parse
diagnostics (invalid control character, invalid character in host name,
invalid port, invalid URL escape, missing protocol scheme). -/
def invalidUrlMsg : String := "parse: invalid URL"

/-- net/http: an empty method defaults to GET. -/
def effectiveMethod (method : String) : String :=
  if method = "" then "GET" else method

/-- `http.NewRequestWithContext`: an empty method defaults to GET, an invalid
method token is an error, then the URL must be accepted by `net/url.Parse`
(modelled by `urlParseOk`). -/
def newRequestWithContext (method url : String) (body : Json) : Except String Request :=
  if (effectiveMethod method).toList.all isTokenChar then
    if urlParseOk url then
      .ok { Method := effectiveMethod method, Url := url, Body := body, Headers := [] }
    else
      .error invalidUrlMsg
  else
    .error ("net/http: invalid method " ++ effectiveMethod method)

/-- The pipeline's client state (`client` struct): base URL and API key.  The
injected transport is passed separately, as a function, in place of the
`HttpClient` field. -/
structure Client where
  BaseUrl : String
  ApiKey : String

/-- The target URL `createRequest` composes: the base URL alone when the
endpoint suffix is empty, otherwise `BaseUrl ++ "/" ++ endpoint`. -/
def composedUrl (c : Client) (endpoint : String) : String :=
  if endpoint ≠ "" then c.BaseUrl ++ "/" ++ endpoint else c.BaseUrl

/-- `createRequest` from client.go: reject an empty base URL, compose the
target URL, marshal the payload (which cannot fail on this payload universe,
as in Go), build the request, and set the Content-Type and Accept headers. -/
def createRequest (c : Client) (method endpoint : String) (data : Payload) : Except String Request :=
  if c.BaseUrl = "" then .error "supabase api url is empty"
  else
    match newRequestWithContext method (composedUrl c endpoint) (marshalPayload data) with
    | .error e => .error e
    | .ok req =>
      .ok { req with
            Headers := setHeader (setHeader req.Headers "Content-Type" "application/json")
              "Accept" "application/json" }

/-- An HTTP response as delivered by the transport: status code, and the JSON
document its body parses to (`none` when the body is empty or not
syntactically valid JSON). -/
structure HttpResponse where
  statusCode : Int
  body : Option Json

/-- `AuthResponse` from client.go.  `Data` is `any` in Go; here it is `none`
when left unset, otherwise either a decoded success shape (`Sum.inl`) or a
decoded `ErrorResponse` (`Sum.inr`). -/
structure AuthResponse (α : Type) where
  Status : Int
  Data : Option (α ⊕ ErrorResponse)

/-- The JSON syntax-error message `encoding/json` produces on a malformed
body. -/
def malformedJsonMsg : String := "invalid character looking for beginning of value"

/-- Whether a JSON document is the literal `null`. -/
def isJsonNull : Json → Bool
  | .null => true
  | _ => false

/-- Go's `Decode(&successValue)` at its pointer-to-interface target: the JSON
document `null` sets the interface itself to nil — never an error — so the
envelope's `Data` ends up nil; any other document is decoded by the expected
shape's decoder (`some` of the decoded value on success). -/
def decodeViaInterface {α : Type} (dec : Json → Except String α) (j : Json) :
    Except String (Option α) :=
  match isJsonNull j, dec j with
  | true, _ => .ok none
  | false, .error e => .error e
  | false, .ok v => .ok (some v)

/-- The body of `sendRequest` after `Do` returns a response: capture the
status; outside [200,300) decode the error shape (failing on a malformed
body) into the `*ErrorResponse` — a typed pointer, so `Data` is always set
there; inside the range decode the success shape unless the status is 204
(`http.StatusNoContent`) or no success value was supplied, the decode going
through the `&successValue` interface (`decodeViaInterface`), which a JSON
`null` body sets to nil.  The caller's `successValue any` is modelled as an
optional decoder for the expected shape (`none` = Go `nil`). -/
def handleResponse {α : Type} (res : HttpResponse) (successValue : Option (Json → Except String α)) :
    Except String (AuthResponse α) :=
  if 200 ≤ res.statusCode ∧ res.statusCode < 300 then
    match successValue with
    | none => .ok { Status := res.statusCode, Data := none }
    | some dec =>
      if res.statusCode = 204 then .ok { Status := res.statusCode, Data := none }
      else
        match res.body with
        | none => .error malformedJsonMsg
        | some j =>
          match decodeViaInterface dec j with
          | .error e => .error e
          | .ok v => .ok { Status := res.statusCode, Data := Option.map Sum.inl v }
  else
    match res.body with
    | none => .error malformedJsonMsg
    | some j =>
      match decodeErrorResponse j with
      | .error e => .error e
      | .ok errorValue => .ok { Status := res.statusCode, Data := some (Sum.inr errorValue) }

/-- The request as dispatched: `sendRequest` sets the `apikey` header
immediately before calling `Do`. -/
def withApiKey (c : Client) (req : Request) : Request :=
  { req with Headers := setHeader req.Headers "apikey" c.ApiKey }

/-- `sendRequest` from client.go: set the `apikey` header, dispatch through
the injected transport, propagate a transport error verbatim (returning no
envelope), otherwise classify and decode the response. -/
def sendRequest {α : Type} (c : Client) (transport : Request → Except String HttpResponse)
    (req : Request) (successValue : Option (Json → Except String α)) :
    Except String (AuthResponse α) :=
  match transport (withApiKey c req) with
  | .error e => .error e
  | .ok res => handleResponse res successValue

/-- `createAndSendRequest` from client.go: `createRequest` then `sendRequest`,
propagating either step's failure unchanged. -/
def createAndSendRequest {α : Type} (c : Client) (transport : Request → Except String HttpResponse)
    (method endpoint : String) (data : Payload)
    (successValue : Option (Json → Except String α)) : Except String (AuthResponse α) :=
  match createRequest c method endpoint data with
  | .error e => .error e
  | .ok req => sendRequest c transport req successValue

/-- The request built by `Auth.SignUp` (auth.go): POST to `signup` with the
credentials as payload. -/
def signUpRequest (c : Client) (credentials : UserCredentials) : Except String Request :=
  createRequest c "POST" "signup" (Payload.creds credentials)

/-- The request built by `Auth.SignIn` (auth.go): POST to
`token?grant_type=password` with the credentials as payload. -/
def signInRequest (c : Client) (credentials : UserCredentials) : Except String Request :=
  createRequest c "POST" "token?grant_type=password" (Payload.creds credentials)

/-- Whether a JSON object key matches (case-insensitively) one of the three
keys the `ErrorResponse` decoder looks for. -/
def errorShapeKey (k : String) : Bool :=
  eqFold k "code" || eqFold k "error_code" || eqFold k "msg"

theorem applyErrorField_no_match (er : ErrorResponse) (k : String) (v : Json)
    (h : errorShapeKey k = false) : applyErrorField er k v = .ok er := by
  simp only [errorShapeKey, Bool.or_eq_false_iff] at h
  unfold applyErrorField
  rw [h.1.1, h.1.2, h.2]
  simp

theorem decodeErrorFields_no_match (er : ErrorResponse) (fields : List (String × Json))
    (h : ∀ p ∈ fields, errorShapeKey p.1 = false) :
    decodeErrorFields er fields = .ok er := by
  induction fields generalizing er with
  | nil => rfl
  | cons p rest ih =>
    obtain ⟨k, v⟩ := p
    have ha := applyErrorField_no_match er k v (h (k, v) (by simp))
    simp only [decodeErrorFields, ha]
    exact ih er fun q hq => h q (List.mem_cons_of_mem _ hq)

theorem newRequestWithContext_ok {method url : String} {body : Json} {req : Request}
    (h : newRequestWithContext method url body = .ok req) :
    req.Body = body ∧ req.Url = url := by
  unfold newRequestWithContext at h
  by_cases h1 : ((effectiveMethod method).toList.all isTokenChar) = true
  · rw [if_pos h1] at h
    by_cases h2 : urlParseOk url = true
    · rw [if_pos h2] at h
      injection h with h
      subst h
      exact ⟨rfl, rfl⟩
    · rw [if_neg h2] at h
      exact absurd h (by simp)
  · rw [if_neg h1] at h
    exact absurd h (by simp)

theorem createRequest_ok_body {c : Client} {method endpoint : String} {data : Payload}
    {req : Request} (h : createRequest c method endpoint data = .ok req) :
    req.Body = marshalPayload data := by
  unfold createRequest at h
  by_cases hb : c.BaseUrl = ""
  · rw [if_pos hb] at h
    exact absurd h (by simp)
  · rw [if_neg hb] at h
    cases hnew : newRequestWithContext method (composedUrl c endpoint) (marshalPayload data) with
    | error e =>
      rw [hnew] at h
      exact absurd h (by simp)
    | ok req0 =>
      rw [hnew] at h
      have h2 : Except.ok { req0 with
          Headers := setHeader (setHeader req0.Headers "Content-Type" "application/json")
            "Accept" "application/json" } = Except.ok req := h
      injection h2 with h2
      subst h2
      exact (newRequestWithContext_ok hnew).1

/-- C7: if the transport's `Do` returns an error, `sendRequest` propagates that
error verbatim and returns no envelope; with no response in hand, no body is
read or decoded. -/
theorem sendRequest_transport_error {α : Type} (c : Client)
    (transport : Request → Except String HttpResponse) (req : Request)
    (successValue : Option (Json → Except String α)) (e : String)
    (ht : transport (withApiKey c req) = .error e) :
    sendRequest c transport req successValue = .error e := by
  simp [sendRequest, ht]

theorem sendRequest_transport_error_witness :
    sendRequest (α := Unit) ⟨"https://test.supabase.co/auth/v1", "abc123"⟩
      (fun _ => .error "connection refused")
      ⟨"POST", "https://test.supabase.co/auth/v1/signup", Json.null, []⟩ none
      = .error "connection refused" :=
  sendRequest_transport_error _ _ _ _ _ rfl

/-- C5: with an empty base URL, `createRequest` fails with the configuration
error "supabase api url is empty" and produces no request, and
`createAndSendRequest` fails the same way for every transport whatsoever —
no transport activity takes place. -/
theorem createRequest_empty_base_url {α : Type} (c : Client) (method endpoint : String)
    (data : Payload) (transport : Request → Except String HttpResponse)
    (successValue : Option (Json → Except String α)) (h : c.BaseUrl = "") :
    createRequest c method endpoint data = .error "supabase api url is empty" ∧
    createAndSendRequest c transport method endpoint data successValue
      = .error "supabase api url is empty" := by
  have h1 : createRequest c method endpoint data = .error "supabase api url is empty" := by
    simp [createRequest, h]
  exact ⟨h1, by simp [createAndSendRequest, h1]⟩

theorem createRequest_empty_base_url_witness :
    createRequest ⟨"", "abc123"⟩ "POST" "signup" Payload.null
      = .error "supabase api url is empty" ∧
    createAndSendRequest (α := Unit) ⟨"", "abc123"⟩ (fun _ => .ok ⟨200, some Json.null⟩)
      "POST" "signup" Payload.null none = .error "supabase api url is empty" :=
  createRequest_empty_base_url _ _ _ _ _ _ rfl

/-- C1: for a response with status outside [200,300) whose body decodes into
the error shape, `sendRequest` returns a non-nil envelope carrying that status
and the decoded `ErrorResponse`, with a nil error; and the decoder fills the
struct fields Status/ErrorCode/Message from the body keys
`code`/`error_code`/`msg`. -/
theorem sendRequest_non2xx_error_shape {α : Type} (c : Client)
    (transport : Request → Except String HttpResponse) (req : Request)
    (successValue : Option (Json → Except String α)) (s : Int) (j : Json) (ev : ErrorResponse)
    (hs : ¬ (200 ≤ s ∧ s < 300))
    (ht : transport (withApiKey c req) = .ok ⟨s, some j⟩)
    (hdec : decodeErrorResponse j = .ok ev) :
    sendRequest c transport req successValue = .ok ⟨s, some (Sum.inr ev)⟩ ∧
    decodeErrorResponse (Json.obj [("code", Json.num ev.Status),
      ("error_code", Json.str ev.ErrorCode), ("msg", Json.str ev.Message)]) = .ok ev := by
  constructor
  · simp [sendRequest, ht, handleResponse, hs, hdec]
  · cases ev
    rfl

theorem sendRequest_non2xx_error_shape_witness :
    sendRequest (α := Unit) ⟨"https://test.supabase.co/auth/v1", "abc123"⟩
      (fun _ => .ok ⟨400, some (Json.obj [("code", Json.num 400),
        ("error_code", Json.str "used_foo_bar"), ("msg", Json.str "Bad Request")])⟩)
      ⟨"POST", "https://test.supabase.co/auth/v1/signup", Json.null, []⟩ none
      = .ok ⟨400, some (Sum.inr ⟨400, "used_foo_bar", "Bad Request"⟩)⟩ :=
  (sendRequest_non2xx_error_shape _ _ _ _ 400
    (Json.obj [("code", Json.num 400), ("error_code", Json.str "used_foo_bar"),
      ("msg", Json.str "Bad Request")])
    ⟨400, "used_foo_bar", "Bad Request"⟩ (by decide) rfl rfl).1

/-- C10: for a non-2xx response whose JSON body is `null`, `{}`, or any object
none of whose keys matches `code`/`error_code`/`msg`, the decode succeeds and
`sendRequest` returns a nil error and an envelope whose data is the zero-valued
`ErrorResponse` (0, "", ""); nothing checks that the three keys are present. -/
theorem sendRequest_error_shape_zero_values {α : Type} (c : Client)
    (transport : Request → Except String HttpResponse) (req : Request)
    (successValue : Option (Json → Except String α)) (s : Int)
    (fields : List (String × Json))
    (hs : ¬ (200 ≤ s ∧ s < 300))
    (hkeys : ∀ p ∈ fields, errorShapeKey p.1 = false) :
    decodeErrorResponse (Json.obj fields) = .ok ⟨0, "", ""⟩ ∧
    decodeErrorResponse Json.null = .ok ⟨0, "", ""⟩ ∧
    (transport (withApiKey c req) = .ok ⟨s, some (Json.obj fields)⟩ →
      sendRequest c transport req successValue = .ok ⟨s, some (Sum.inr ⟨0, "", ""⟩)⟩) := by
  have hz : decodeErrorResponse (Json.obj fields) = .ok ⟨0, "", ""⟩ := by
    simpa [decodeErrorResponse] using decodeErrorFields_no_match _ fields hkeys
  refine ⟨hz, rfl, fun ht => ?_⟩
  simp [sendRequest, ht, handleResponse, hs, hz]

theorem sendRequest_error_shape_zero_values_witness :
    sendRequest (α := Unit) ⟨"https://test.supabase.co/auth/v1", "abc123"⟩
      (fun _ => .ok ⟨422, some (Json.obj [("foo", Json.str "bar")])⟩)
      ⟨"POST", "https://test.supabase.co/auth/v1/signup", Json.null, []⟩ none
      = .ok ⟨422, some (Sum.inr ⟨0, "", ""⟩)⟩ :=
  (sendRequest_error_shape_zero_values _ _ _ _ 422 [("foo", Json.str "bar")]
    (by decide) (by decide)).2.2 rfl

theorem isJsonNull_true_eq {j : Json} (h : isJsonNull j = true) : j = Json.null := by
  cases j <;> first | rfl | exact absurd h (by simp [isJsonNull])

theorem isJsonNull_false_ne {j : Json} (h : isJsonNull j = false) : ¬ j = Json.null := by
  intro hj
  subst hj
  simp [isJsonNull] at h

/-- C3: for a response with status in [200,300): if the status is 204 or no
success shape was requested, `sendRequest` returns an envelope with nil data
and a nil error, for any body whatsoever (the body is not decoded); otherwise
it decodes the body through the `&successValue` interface and returns an
envelope carrying exactly the decoded value and the response's status code —
for a non-`null` body the decoded success shape, and for the JSON body `null`
the nil the decode leaves in the interface (Go's null-into-interface rule),
with a nil error in both cases. -/
theorem sendRequest_success_path {α : Type} (c : Client)
    (transport : Request → Except String HttpResponse) (req : Request)
    (successValue : Option (Json → Except String α)) (s : Int) (body : Option Json)
    (h2 : 200 ≤ s ∧ s < 300)
    (ht : transport (withApiKey c req) = .ok ⟨s, body⟩) :
    ((s = 204 ∨ successValue = none) → sendRequest c transport req successValue = .ok ⟨s, none⟩) ∧
    (∀ (dec : Json → Except String α) (j : Json) (v : α),
      successValue = some dec → s ≠ 204 → body = some j → isJsonNull j = false →
      dec j = .ok v →
      sendRequest c transport req successValue = .ok ⟨s, some (Sum.inl v)⟩) ∧
    (∀ (dec : Json → Except String α),
      successValue = some dec → s ≠ 204 → body = some Json.null →
      sendRequest c transport req successValue = .ok ⟨s, none⟩) := by
  refine ⟨?_, ?_, ?_⟩
  · rintro (h204 | hnone)
    · cases successValue with
      | none => simp [sendRequest, ht, handleResponse, h2]
      | some dec => simp [sendRequest, ht, handleResponse, h2, h204]
    · subst hnone
      simp [sendRequest, ht, handleResponse, h2]
  · rintro dec j v hsv h204 hb hj hdec
    subst hsv
    subst hb
    simp [sendRequest, ht, handleResponse, h2, h204, decodeViaInterface, hj, hdec]
  · rintro dec hsv h204 hb
    subst hsv
    subst hb
    simp [sendRequest, ht, handleResponse, h2, h204, decodeViaInterface, isJsonNull]

theorem sendRequest_success_path_witness :
    sendRequest ⟨"https://test.supabase.co/auth/v1", "abc123"⟩
      (fun _ => .ok ⟨200, some (Json.obj [("foo", Json.str "bar")])⟩)
      ⟨"POST", "https://test.supabase.co/auth/v1/signup", Json.null, []⟩ (some decodeStrMap)
      = .ok ⟨200, some (Sum.inl [("foo", "bar")])⟩ :=
  (sendRequest_success_path _ _ _ _ 200 (some (Json.obj [("foo", Json.str "bar")]))
    (by decide) rfl).2.1 decodeStrMap (Json.obj [("foo", Json.str "bar")]) [("foo", "bar")]
    rfl (by decide) rfl rfl rfl

/-- C4 counterexample: a 204 response whose body is not syntactically valid
JSON still yields a nil error and an envelope — the claim "for every response,
an invalid JSON body makes sendRequest return a non-nil error" is false at
status 204 (and likewise whenever no decode is attempted), because the body is
never read on that path. -/
theorem sendRequest_malformed_body_refuted :
    sendRequest ⟨"https://test.supabase.co/auth/v1", "abc123"⟩
      (fun _ => .ok ⟨204, none⟩)
      ⟨"POST", "https://test.supabase.co/auth/v1/logout", Json.null, []⟩
      (some decodeStrMap)
      = .ok ⟨204, none⟩ :=
  rfl

/-- C4 (amended): whenever `sendRequest` attempts a decode — status outside
[200,300), or status inside [200,300) with status ≠ 204 and a success shape
requested — a body that is not syntactically valid JSON yields a non-nil
error (the parse diagnostic) and no envelope; on the remaining paths the body
is never decoded. -/
theorem sendRequest_malformed_body_error {α : Type} (c : Client)
    (transport : Request → Except String HttpResponse) (req : Request)
    (successValue : Option (Json → Except String α)) (s : Int)
    (ht : transport (withApiKey c req) = .ok ⟨s, none⟩) :
    (¬ (200 ≤ s ∧ s < 300) → sendRequest c transport req successValue = .error malformedJsonMsg) ∧
    (∀ dec, successValue = some dec → (200 ≤ s ∧ s < 300) → s ≠ 204 →
      sendRequest c transport req successValue = .error malformedJsonMsg) := by
  constructor
  · intro hs
    simp [sendRequest, ht, handleResponse, hs]
  · rintro dec rfl h2 h204
    simp [sendRequest, ht, handleResponse, h2, h204]

theorem sendRequest_malformed_body_error_witness :
    sendRequest (α := Unit) ⟨"https://test.supabase.co/auth/v1", "abc123"⟩
      (fun _ => .ok ⟨400, none⟩)
      ⟨"POST", "https://test.supabase.co/auth/v1/signup", Json.null, []⟩ none
      = .error malformedJsonMsg :=
  (sendRequest_malformed_body_error _ _ _ _ 400 rfl).1 (by decide)

theorem handleResponse_data_shape {α : Type} (s : Int) (body : Option Json)
    (successValue : Option (Json → Except String α)) (r : AuthResponse α)
    (h : handleResponse ⟨s, body⟩ successValue = .ok r) :
    r.Status = s ∧
    (r.Data = none ↔
      ((200 ≤ s ∧ s < 300) ∧ (s = 204 ∨ successValue = none ∨ body = some Json.null))) ∧
    (∀ v, r.Data = some (Sum.inl v) → (200 ≤ s ∧ s < 300)) ∧
    (∀ ev, r.Data = some (Sum.inr ev) → ¬ (200 ≤ s ∧ s < 300)) := by
  unfold handleResponse at h
  dsimp only at h
  by_cases hrange : 200 ≤ s ∧ s < 300
  · rw [if_pos hrange] at h
    cases successValue with
    | none =>
      have h2 : Except.ok (⟨s, none⟩ : AuthResponse α) = Except.ok r := h
      injection h2 with h2
      subst h2
      simp [hrange]
    | some dec =>
      dsimp only at h
      by_cases h204 : s = 204
      · rw [if_pos h204] at h
        have h2 : Except.ok (⟨s, none⟩ : AuthResponse α) = Except.ok r := h
        injection h2 with h2
        subst h2
        simp [hrange, h204]
      · rw [if_neg h204] at h
        cases body with
        | none => exact absurd h (by simp)
        | some j =>
          dsimp only at h
          by_cases hnull : isJsonNull j = true
          · have hj : j = Json.null := isJsonNull_true_eq hnull
            subst hj
            have h2 : Except.ok (⟨s, none⟩ : AuthResponse α) = Except.ok r := h
            injection h2 with h2
            subst h2
            simp [hrange]
          · have hb : isJsonNull j = false := by simpa using hnull
            have hne : ¬ j = Json.null := isJsonNull_false_ne hb
            cases hdec : dec j with
            | error e =>
              have hd : decodeViaInterface dec j = .error e := by
                unfold decodeViaInterface
                rw [hb, hdec]
              rw [hd] at h
              exact absurd h (by simp)
            | ok v =>
              have hd : decodeViaInterface dec j = .ok (some v) := by
                unfold decodeViaInterface
                rw [hb, hdec]
              rw [hd] at h
              have h2 : Except.ok (⟨s, some (Sum.inl v)⟩ : AuthResponse α) = Except.ok r := h
              injection h2 with h2
              subst h2
              simp [hrange, h204, hne]
  · rw [if_neg hrange] at h
    cases body with
    | none => exact absurd h (by simp)
    | some j =>
      dsimp only at h
      cases hdec : decodeErrorResponse j with
      | error e =>
        rw [hdec] at h
        exact absurd h (by simp)
      | ok ev =>
        rw [hdec] at h
        have h2 : Except.ok (⟨s, some (Sum.inr ev)⟩ : AuthResponse α) = Except.ok r := h
        injection h2 with h2
        subst h2
        simp [hrange]

/-- C2 counterexample: a 400 response with body `{}` dispatched with no
success shape requested (`successValue = nil`, as in SignOut) yields an
envelope whose data is present (the zero-valued `ErrorResponse`), although the
claimed "data absent iff status is 204 or no success shape was requested"
demands it be absent — the right-hand side holds while data is non-nil. -/
theorem sendRequest_data_absent_iff_refuted :
    sendRequest (α := Unit) ⟨"https://test.supabase.co/auth/v1", "abc123"⟩
      (fun _ => .ok ⟨400, some (Json.obj [])⟩)
      ⟨"POST", "https://test.supabase.co/auth/v1/logout", Json.null, []⟩ none
      = .ok ⟨400, some (Sum.inr ⟨0, "", ""⟩)⟩ ∧
    ((400 : Int) = 204 ∨ (none : Option (Json → Except String Unit)) = none) ∧
    (some (Sum.inr (⟨0, "", ""⟩ : ErrorResponse)) : Option (Unit ⊕ ErrorResponse)) ≠ none :=
  ⟨rfl, Or.inr rfl, by simp⟩

/-- C2 (amended): for every envelope `sendRequest` returns, its status is the
response's status code and its data is absent if and only if the status is in
[200,300) AND (the status is 204, or no success shape was requested, or the
success body is the JSON literal `null`, which Go's decode through the
`&successValue` interface turns into a nil interface); when data is present it
is a decoded success shape exactly when the status is in [200,300) and a
decoded error shape exactly when the status is outside that range. -/
theorem sendRequest_data_absent_iff {α : Type} (c : Client)
    (transport : Request → Except String HttpResponse) (req : Request)
    (successValue : Option (Json → Except String α)) (s : Int) (body : Option Json)
    (r : AuthResponse α)
    (ht : transport (withApiKey c req) = .ok ⟨s, body⟩)
    (hr : sendRequest c transport req successValue = .ok r) :
    r.Status = s ∧
    (r.Data = none ↔
      ((200 ≤ s ∧ s < 300) ∧ (s = 204 ∨ successValue = none ∨ body = some Json.null))) ∧
    (∀ v, r.Data = some (Sum.inl v) → (200 ≤ s ∧ s < 300)) ∧
    (∀ ev, r.Data = some (Sum.inr ev) → ¬ (200 ≤ s ∧ s < 300)) := by
  apply handleResponse_data_shape s body successValue r
  unfold sendRequest at hr
  rw [ht] at hr
  exact hr

theorem sendRequest_data_absent_iff_witness :
    (AuthResponse.Data (α := List (String × String)) ⟨200, none⟩) = none :=
  ((sendRequest_data_absent_iff ⟨"https://test.supabase.co/auth/v1", "abc123"⟩
    (fun _ => .ok ⟨200, some Json.null⟩)
    ⟨"POST", "https://test.supabase.co/auth/v1/recover", Json.null, []⟩ (some decodeStrMap)
    200 (some Json.null) ⟨200, none⟩ rfl rfl).2.1).mpr
    ⟨by decide, Or.inr (Or.inr rfl)⟩

/-- C6: for a client with a non-empty base URL (and a valid HTTP method, as
every caller of `createRequest` passes), the target URL is composed as the
base URL itself when the endpoint suffix is empty and as
`BaseUrl ++ "/" ++ suffix` otherwise; `createRequest` succeeds with exactly
that URL when the composed string is a syntactically valid URL (`urlParseOk`,
modelled from `net/url.Parse`), and fails with the invalid-URL error exactly
when it is not. -/
theorem createRequest_url_composition (c : Client) (method endpoint : String) (data : Payload)
    (hbase : ¬ c.BaseUrl = "")
    (hmethod : ((effectiveMethod method).toList.all isTokenChar) = true) :
    (composedUrl c endpoint
      = if endpoint = "" then c.BaseUrl else c.BaseUrl ++ "/" ++ endpoint) ∧
    (urlParseOk (composedUrl c endpoint) = true →
      createRequest c method endpoint data =
        .ok { Method := effectiveMethod method, Url := composedUrl c endpoint,
              Body := marshalPayload data,
              Headers := [("Content-Type", "application/json"),
                ("Accept", "application/json")] }) ∧
    (urlParseOk (composedUrl c endpoint) = false →
      createRequest c method endpoint data = .error invalidUrlMsg) := by
  refine ⟨?_, ?_, ?_⟩
  · by_cases he : endpoint = "" <;> simp [composedUrl, he]
  · intro hurl
    have hnew : newRequestWithContext method (composedUrl c endpoint) (marshalPayload data)
        = .ok { Method := effectiveMethod method, Url := composedUrl c endpoint,
                Body := marshalPayload data, Headers := [] } := by
      unfold newRequestWithContext
      rw [if_pos hmethod, if_pos hurl]
    unfold createRequest
    rw [if_neg hbase, hnew]
    rfl
  · intro hurl
    have hnew : newRequestWithContext method (composedUrl c endpoint) (marshalPayload data)
        = .error invalidUrlMsg := by
      unfold newRequestWithContext
      rw [if_pos hmethod, hurl]
      simp
    unfold createRequest
    rw [if_neg hbase, hnew]

theorem createRequest_url_composition_witness :
    createRequest ⟨"https://test.supabase.co/auth/v1", "abc123"⟩ "POST" "signup" Payload.null
      = .ok ⟨"POST", "https://test.supabase.co/auth/v1/signup", Json.null,
             [("Content-Type", "application/json"), ("Accept", "application/json")]⟩ ∧
    createRequest ⟨"https://test.supabase.co\x7bauth/v1", "abc123"⟩ "POST" "test" Payload.null
      = .error invalidUrlMsg :=
  ⟨(createRequest_url_composition ⟨"https://test.supabase.co/auth/v1", "abc123"⟩
      "POST" "signup" Payload.null (by decide) (by decide)).2.1 (by decide),
   (createRequest_url_composition ⟨"https://test.supabase.co\x7bauth/v1", "abc123"⟩
      "POST" "test" Payload.null (by decide) (by decide)).2.2 (by decide)⟩

theorem decodeUserCredentials_marshal (cr : UserCredentials) :
    decodeUserCredentials (marshalPayload (Payload.creds cr)) = .ok cr := by
  cases cr
  rfl

theorem insertStrMap_append (acc : List (String × String)) (k v : String)
    (h : ∀ p ∈ acc, p.1 < k) : insertStrMap acc k v = acc ++ [(k, v)] := by
  induction acc with
  | nil => rfl
  | cons p rest ih =>
    obtain ⟨k0, v0⟩ := p
    have hk0 : k0 < k := h (k0, v0) (by simp)
    have hne : ¬ k = k0 := ne_of_gt hk0
    have hnlt : ¬ k < k0 := lt_asymm hk0
    simp only [insertStrMap, if_neg hne, if_neg hnlt, List.cons_append]
    rw [ih fun q hq => h q (List.mem_cons_of_mem _ hq)]

theorem decodeStrMapFields_sorted (entries : List (String × String)) :
    ∀ acc : List (String × String),
      entries.Pairwise (fun p q => p.1 < q.1) →
      (∀ p ∈ acc, ∀ q ∈ entries, p.1 < q.1) →
      decodeStrMapFields (entries.map fun kv => (kv.1, Json.str kv.2)) acc
        = .ok (acc ++ entries) := by
  induction entries with
  | nil =>
    intro acc _ _
    simp [decodeStrMapFields]
  | cons p rest ih =>
    intro acc hsorted hacc
    obtain ⟨k, v⟩ := p
    rw [List.pairwise_cons] at hsorted
    have hins : insertStrMap acc k v = acc ++ [(k, v)] :=
      insertStrMap_append acc k v fun q hq => hacc q hq (k, v) (by simp)
    simp only [List.map_cons, decodeStrMapFields, hins]
    have hacc2 : ∀ p2 ∈ acc ++ [(k, v)], ∀ q ∈ rest, p2.1 < q.1 := by
      intro p2 hp2 q hq
      rcases List.mem_append.mp hp2 with hmem | hmem
      · exact hacc p2 hmem q (List.mem_cons_of_mem _ hq)
      · simp only [List.mem_singleton] at hmem
        subst hmem
        exact hsorted.1 q hq
    rw [ih (acc ++ [(k, v)]) hsorted.2 hacc2]
    simp

theorem decodeStrMap_marshal (entries : List (String × String))
    (hsorted : entries.Pairwise fun p q => p.1 < q.1) :
    decodeStrMap (marshalPayload (Payload.strMap entries)) = .ok entries := by
  simpa [decodeStrMap, marshalPayload] using
    decodeStrMapFields_sorted entries [] hsorted (by simp)

/-- C8: the request produced by `createRequest` carries the JSON-marshalled
payload as its body, and deserializing that body yields the original payload:
a `UserCredentials` payload round-trips through the credentials decoder, a
`map[string]string` payload (canonical key-sorted list, the form of a Go map)
round-trips through the map decoder, and a nil payload is carried as JSON
`null`, which `json.Unmarshal` maps back to nil. -/
theorem createRequest_body_roundtrip (c : Client) (method endpoint : String)
    (cr : UserCredentials) (entries : List (String × String))
    (hsorted : entries.Pairwise fun p q => p.1 < q.1) :
    (∀ req, createRequest c method endpoint (Payload.creds cr) = .ok req →
      decodeUserCredentials req.Body = .ok cr) ∧
    (∀ req, createRequest c method endpoint (Payload.strMap entries) = .ok req →
      decodeStrMap req.Body = .ok entries) ∧
    (∀ req, createRequest c method endpoint Payload.null = .ok req →
      req.Body = Json.null) := by
  refine ⟨fun req h => ?_, fun req h => ?_, fun req h => ?_⟩
  · rw [createRequest_ok_body h]
    exact decodeUserCredentials_marshal cr
  · rw [createRequest_ok_body h]
    exact decodeStrMap_marshal entries hsorted
  · exact createRequest_ok_body h

theorem createRequest_body_roundtrip_witness :
    decodeUserCredentials (Request.Body ⟨"POST", "https://test.supabase.co/auth/v1/signup",
      Json.obj [("Email", Json.str "a@b.c"), ("Password", Json.str "pw")],
      [("Content-Type", "application/json"), ("Accept", "application/json")]⟩)
      = .ok ⟨"a@b.c", "pw"⟩ :=
  (createRequest_body_roundtrip ⟨"https://test.supabase.co/auth/v1", "abc123"⟩ "POST" "signup"
    ⟨"a@b.c", "pw"⟩ [("email", "x@y.z")] (by simp)).1 _ rfl

/-- C9: SignUp and SignIn serialize the `UserCredentials` payload with Go's
default exported-field names: the JSON request body is an object with the
capitalized keys "Email" and "Password", because `UserCredentials` declares
no JSON struct tags. -/
theorem signUp_signIn_body_keys (c : Client) (credentials : UserCredentials) :
    (∀ req, signUpRequest c credentials = .ok req →
      req.Body = Json.obj [("Email", Json.str credentials.Email),
        ("Password", Json.str credentials.Password)]) ∧
    (∀ req, signInRequest c credentials = .ok req →
      req.Body = Json.obj [("Email", Json.str credentials.Email),
        ("Password", Json.str credentials.Password)]) :=
  ⟨fun _ h => createRequest_ok_body h, fun _ h => createRequest_ok_body h⟩

theorem signUp_signIn_body_keys_witness :
    Request.Body ⟨"POST", "https://test.supabase.co/auth/v1/signup",
      Json.obj [("Email", Json.str "a@b.c"), ("Password", Json.str "pw")],
      [("Content-Type", "application/json"), ("Accept", "application/json")]⟩
      = Json.obj [("Email", Json.str "a@b.c"), ("Password", Json.str "pw")] :=
  (signUp_signIn_body_keys ⟨"https://test.supabase.co/auth/v1", "abc123"⟩ ⟨"a@b.c", "pw"⟩).1 _ rfl

end Supauth
